import Mathlib

/-!
Verification of the kf_vs_ak program (src/main.rs): a comparison of the
long-run net return of a Swedish taxable brokerage account ("aktiekonto")
against a tax-deferred insurance wrapper ("kapitalförsäkring").

The source is shallowly embedded: `f32` arithmetic is modelled over `ℚ`,
the panic on a missing `HashMap` key is modelled with `Except`, and the
stable `sort_by` on dates is modelled with `List.mergeSort` (a stable sort).
-/

namespace KfVsAk

/-- `calculate_avkastningsskatt` from src/main.rs:
`0.01 * (slr + 1.0).max(minimum_tax_percentage) * tax_base_rate`
with `tax_base_rate = 0.30` and `minimum_tax_percentage = 1.25`. -/
def calculate_avkastningsskatt (slr : ℚ) : ℚ :=
  let tax_base_rate : ℚ := 0.30
  let minimum_tax_percentage : ℚ := 1.25
  0.01 * max (slr + 1.0) minimum_tax_percentage * tax_base_rate

/-- `struct Record` from src/main.rs: the per-year combined snapshot. -/
structure Record where
  avkastningsskatt : ℚ
  omxs30 : ℚ
deriving DecidableEq, Repr

/-- The combination loop of `main` (src/main.rs lines 140-157): for every
year in the union of the two sources' key sets, build a `Record` from the
index value (`unwrap_or(&0.0)`) and the tax rate computed from the SLR value
(`unwrap_or(&0.0)`).  A year outside the union has no entry (`none`). -/
def combinedRecords (omx slr : ℤ → Option ℚ) (year : ℤ) : Option Record :=
  if (omx year).isSome ∨ (slr year).isSome then
    some { avkastningsskatt := calculate_avkastningsskatt ((slr year).getD 0),
           omxs30 := (omx year).getD 0 }
  else
    none

/-- The running multipliers of the simulation loop (`ak_sum`, `kf_sum` in
src/main.rs lines 166-167). -/
structure SimState where
  ak_sum : ℚ
  kf_sum : ℚ
deriving DecidableEq, Repr

/-- Failure of a table lookup `combined_records[&year]`: in the Rust source
an absent key makes the index operation panic; the embedding surfaces the
panic as an explicit error value. -/
inductive SimError where
  | missingYear (year : ℤ)
deriving DecidableEq, Repr

/-- `combined_records[&year]` (panicking lookup) as an `Except`. -/
def getRec (table : ℤ → Option Record) (year : ℤ) : Except SimError Record :=
  match table year with
  | some r => .ok r
  | none => .error (.missingYear year)

/-- `struct SeriesEntry` from src/main.rs (the Swedish field name
`kapitalförsäkring` is transliterated to ASCII). -/
structure SeriesEntry where
  start_year : ℤ
  aktiekonto : ℚ
  kapitalforsakring : ℚ
deriving DecidableEq, Repr

/-- One iteration of the inner loop (src/main.rs lines 169-177), recorded for
verification: the state the iteration started from, the state it produced,
and the `ak_val` it computed. -/
structure StepRec where
  year : ℤ
  before : SimState
  after : SimState
  ak_val : ℚ
deriving DecidableEq, Repr

/-- The body of the inner loop (src/main.rs lines 170-177): read the previous
and current index values, update both running multipliers, and compute
`ak_val = ak_sum - ((ak_sum - 1.0) * 0.206).max(0.0)`. -/
def stepBody (table : ℤ → Option Record) (year : ℤ) (s : SimState) :
    Except SimError (SimState × ℚ) :=
  match getRec table (year - 1) with
  | .error e => .error e
  | .ok prev =>
    match getRec table year with
    | .error e => .error e
    | .ok cur =>
      let diff := cur.omxs30 / prev.omxs30
      let ak_sum := s.ak_sum * diff
      let kf_sum := s.kf_sum * diff * (1 - cur.avkastningsskatt)
      let ak_val := ak_sum - max ((ak_sum - 1) * 0.206) 0
      .ok (⟨ak_sum, kf_sum⟩, ak_val)

/-- The five `if year_count == h` pushes (src/main.rs lines 179-219),
collected into one horizon-tagged emission list. -/
def emitAt (start_year year : ℤ) (ak_val kf_sum : ℚ) : List (ℤ × SeriesEntry) :=
  let year_count := year - start_year
  let e : SeriesEntry := ⟨start_year, ak_val, kf_sum⟩
  (if year_count = 5 then [(5, e)] else []) ++
  (if year_count = 10 then [(10, e)] else []) ++
  (if year_count = 15 then [(15, e)] else []) ++
  (if year_count = 20 then [(20, e)] else []) ++
  (if year_count = 25 then [(25, e)] else [])

/-- The inner loop of `main` (src/main.rs lines 169-220) over an explicit
list of years, returning the final state, the per-iteration trace, and the
emitted series entries.  A missing year aborts the whole run (the source
panics there). -/
def simLoop (table : ℤ → Option Record) (start_year : ℤ) :
    List ℤ → SimState → Except SimError (SimState × List StepRec × List (ℤ × SeriesEntry))
  | [], s => .ok (s, [], [])
  | year :: rest, s =>
    match stepBody table year s with
    | .error e => .error e
    | .ok (s', ak_val) =>
      match simLoop table start_year rest s' with
      | .error e => .error e
      | .ok (sf, trs, ems) =>
        .ok (sf, ⟨year, s, s', ak_val⟩ :: trs, emitAt start_year year ak_val s'.kf_sum ++ ems)

/-- The ascending run of `n` consecutive integers starting at `a`. -/
def yearsAsc (a : ℤ) : ℕ → List ℤ
  | 0 => []
  | n + 1 => a :: yearsAsc (a + 1) n

/-- The inclusive integer range `a..=b` of the Rust `for` loop. -/
def yearsFromTo (a b : ℤ) : List ℤ :=
  yearsAsc a (b + 1 - a).toNat

/-- One start year's simulation (src/main.rs lines 165-220): both running
multipliers start at `1.0` and the loop runs over `(start_year + 1)..=end_year`
(the source hard-codes `end_year = 2023`; the bound is passed explicitly so
the scenario tables of the spec, which end earlier, can be simulated). -/
def simulate (table : ℤ → Option Record) (start_year end_year : ℤ) :
    Except SimError (SimState × List StepRec × List (ℤ × SeriesEntry)) :=
  simLoop table start_year (yearsFromTo (start_year + 1) end_year) ⟨1, 1⟩

/-- The emissions of a run, `none` when the run panics. -/
def runEmits (table : ℤ → Option Record) (start_year end_year : ℤ) :
    Option (List (ℤ × SeriesEntry)) :=
  match simulate table start_year end_year with
  | .ok (_, _, ems) => some ems
  | .error _ => none

/-! ### The reporter (`print_series`, src/main.rs lines 70-87) -/

/-- `f32` division as used by the averages of `print_series`: dividing by
zero does not crash in `f32` but yields a non-finite value (`0.0/0.0 = NaN`),
modelled here as `none`. -/
def f32Div (a b : ℚ) : Option ℚ :=
  if b = 0 then none else some (a / b)

/-- What `print_series` prints: one row per entry, then the averages row. -/
structure PrintOutput where
  rows : List (ℤ × ℚ × ℚ)
  average_aktiekonto : Option ℚ
  average_kapitalforsakring : Option ℚ
deriving DecidableEq, Repr

/-- `print_series` from src/main.rs lines 70-87: sums both columns over the
slice and divides each sum by `series.len()` with no emptiness guard. -/
def print_series (series : List SeriesEntry) : PrintOutput :=
  { rows := series.map fun e => (e.start_year, e.aktiekonto, e.kapitalforsakring),
    average_aktiekonto :=
      f32Div (series.foldl (fun acc e => acc + e.aktiekonto) 0) series.length,
    average_kapitalforsakring :=
      f32Div (series.foldl (fun acc e => acc + e.kapitalforsakring) 0) series.length }

/-! ### The per-source series builder (src/main.rs lines 98-137)

Both source blocks do the same thing to a list of dated records: stable-sort
by date (`sort_by(|a, b| a.date.cmp(&b.date))`), then insert every record
into a year-keyed map so that the record inserted last for a year wins.
`NaiveDate` is ordered lexicographically by (year, ordinal day in year), so a
date is modelled as that pair. -/

/-- A calendar date: the year and the position of the day within the year.
`NaiveDate` comparison is lexicographic on this pair. -/
structure ObsDate where
  year : ℤ
  ord : ℤ
deriving DecidableEq, Repr

/-- `a.date.cmp(&b.date)` is non-greater: lexicographic on (year, ord). -/
def dateLe (a b : ObsDate) : Bool :=
  decide (a.year < b.year ∨ (a.year = b.year ∧ a.ord ≤ b.ord))

/-- One dated observation (`RecordOmxs30` / `RecordSLR` from src/main.rs). -/
structure Obs where
  date : ObsDate
  value : ℚ
deriving DecidableEq, Repr

/-- The sort comparator of both source blocks: compare by date only. -/
def obsLe (a b : Obs) : Bool :=
  dateLe a.date b.date

/-- The `last_records_by_year` map of each source block (src/main.rs
lines 104-109 and 128-133): stable-sort the records by date, then insert each
record in order under its year, the last insert winning. -/
def lastRecordsByYear (records : List Obs) : ℤ → Option Obs :=
  (records.mergeSort obsLe).foldl
    (fun m r => fun y => if y = r.date.year then some r else m y)
    (fun _ => none)

/-- The per-year representative value kept for a source (the
`last_omxs30_by_year` / `last_slr_by_year` copy loops, src/main.rs
lines 111-113 and 135-137). -/
def lastValueByYear (records : List Obs) (y : ℤ) : Option ℚ :=
  (lastRecordsByYear records y).map Obs.value

/-- One selection step of the specification's rule: keep the candidate unless
the new observation's date is at least as late, in which case the new
observation (the one encountered later) wins. -/
def selLatest (c : Option Obs) (r : Obs) : Option Obs :=
  match c with
  | none => some r
  | some c0 => if dateLe c0.date r.date then some r else some c0

/-- Modelled from the spec (§4.2 step 1): "for each calendar year, keep only
the last (latest-dated) observation — this is the year's representative
value. Tie-break: if two observations share the same date, the one
encountered later in iteration order wins."  A single pass over the records
in their original iteration order, keeping the chronologically latest
observation of year `y`, later observations winning date ties. -/
def chronLatestSpec (records : List Obs) (y : ℤ) : Option ℚ :=
  (records.foldl (fun c r => if r.date.year = y then selLatest c r else c) none).map
    Obs.value

/-- `selLatest` lifted to index-tagged observations (proof instrument: the
index records the observation's position in the original iteration order). -/
def selLatestE (c : Option (ℕ × Obs)) (r : ℕ × Obs) : Option (ℕ × Obs) :=
  match c with
  | none => some r
  | some c0 => if dateLe c0.2.date r.2.date then some r else some c0

/-! ### Concrete scenario tables from the spec -/

/-- The spec §8 scenario table for C6: index 100 in 2000 through 2004,
index 200 in 2005, tax rate 0 every year. -/
def c6Table (year : ℤ) : Option Record :=
  if year = 2000 then some ⟨0, 100⟩
  else if year = 2001 then some ⟨0, 100⟩
  else if year = 2002 then some ⟨0, 100⟩
  else if year = 2003 then some ⟨0, 100⟩
  else if year = 2004 then some ⟨0, 100⟩
  else if year = 2005 then some ⟨0, 200⟩
  else none

/-- The spec §8 scenario table for C4: entries only for 1993, 1994 and 1998;
1995-1997 are missing. -/
def gapTable (year : ℤ) : Option Record :=
  if year = 1993 then some ⟨0.01, 100⟩
  else if year = 1994 then some ⟨0.01, 110⟩
  else if year = 1998 then some ⟨0.02, 150⟩
  else none

/-- A two-year table with a 50% index loss and no tax, exhibiting a step
whose `ak_sum` ends below `1.0`. -/
def lossTable (year : ℤ) : Option Record :=
  if year = 2000 then some ⟨0, 100⟩
  else if year = 2001 then some ⟨0, 50⟩
  else none

/-- A one-year index source (year 2000 only), for exercising the zero-fill. -/
def omxOnly (year : ℤ) : Option ℚ :=
  if year = 2000 then some 100 else none

/-- A one-year SLR source (year 2001 only), for exercising the zero-fill. -/
def slrOnly (year : ℤ) : Option ℚ :=
  if year = 2001 then some 2 else none

end KfVsAk

namespace KfVsAk

/-- C5: the tax model computes `0.01 * max(reference_rate + 1.0, 1.25) * 0.30`
for every rational input; being a total Lean function of its argument it is
pure, defined on the whole domain and raises no error. -/
theorem claim_C5_tax_formula (reference_rate : ℚ) :
    calculate_avkastningsskatt reference_rate =
      0.01 * max (reference_rate + 1.0) 1.25 * 0.30 := by
  rfl

/-- C10: the effective annual tax rate is bounded below by `0.00375` at every
input, and `calculate_avkastningsskatt` is monotone non-decreasing. -/
theorem claim_C10_tax_floor_monotone (slr₁ slr₂ : ℚ) (h : slr₁ ≤ slr₂) :
    0.00375 ≤ calculate_avkastningsskatt slr₁ ∧
      calculate_avkastningsskatt slr₁ ≤ calculate_avkastningsskatt slr₂ := by
  have h₁ : (1.25 : ℚ) ≤ max (slr₁ + 1.0) 1.25 := le_max_right _ _
  have h₂ : max (slr₁ + 1.0) 1.25 ≤ max (slr₂ + 1.0) 1.25 :=
    max_le_max (by linarith) le_rfl
  constructor
  · show (0.00375 : ℚ) ≤ 0.01 * max (slr₁ + 1.0) 1.25 * 0.30
    nlinarith
  · show (0.01 : ℚ) * max (slr₁ + 1.0) 1.25 * 0.30 ≤ 0.01 * max (slr₂ + 1.0) 1.25 * 0.30
    nlinarith

/-- Witness for C10 at the concrete pair `(1, 2)`. -/
theorem claim_C10_tax_floor_monotone_witness :
    0.00375 ≤ calculate_avkastningsskatt 1 ∧
      calculate_avkastningsskatt 1 ≤ calculate_avkastningsskatt 2 :=
  claim_C10_tax_floor_monotone 1 2 (by norm_num)

/-! ### Simulation loop lemmas -/

lemma mem_yearsAsc (n : ℕ) : ∀ a y : ℤ, y ∈ yearsAsc a n ↔ a ≤ y ∧ y < a + n := by
  induction n with
  | zero => intro a y; simp [yearsAsc]
  | succ n ih => intro a y; simp [yearsAsc, ih]; omega

lemma mem_yearsFromTo {a b y : ℤ} : y ∈ yearsFromTo a b ↔ a ≤ y ∧ y ≤ b := by
  simp [yearsFromTo, mem_yearsAsc]; omega

lemma stepBody_ok_of_lookup {table : ℤ → Option Record} {year : ℤ} {prev cur : Record}
    (s : SimState) (hp : table (year - 1) = some prev) (hc : table year = some cur) :
    stepBody table year s =
      .ok (⟨s.ak_sum * (cur.omxs30 / prev.omxs30),
            s.kf_sum * (cur.omxs30 / prev.omxs30) * (1 - cur.avkastningsskatt)⟩,
           s.ak_sum * (cur.omxs30 / prev.omxs30) -
             max ((s.ak_sum * (cur.omxs30 / prev.omxs30) - 1) * 0.206) 0) := by
  simp [stepBody, getRec, hp, hc]

lemma stepBody_ok_lookup {table : ℤ → Option Record} {year : ℤ} {s : SimState}
    {p : SimState × ℚ} (h : stepBody table year s = .ok p) :
    (table (year - 1)).isSome ∧ (table year).isSome := by
  unfold stepBody getRec at h
  cases hp : table (year - 1) <;> rw [hp] at h
  · simp at h
  · cases hc : table year <;> rw [hc] at h
    · simp at h
    · simp

lemma stepBody_ok_akval {table : ℤ → Option Record} {year : ℤ} {s s' : SimState} {v : ℚ}
    (h : stepBody table year s = .ok (s', v)) :
    v = s'.ak_sum - max ((s'.ak_sum - 1) * 0.206) 0 := by
  unfold stepBody getRec at h
  cases hp : table (year - 1) <;> rw [hp] at h
  · simp at h
  · cases hc : table year <;> rw [hc] at h
    · simp at h
    · simp only [Except.ok.injEq, Prod.mk.injEq] at h
      obtain ⟨hs, hv⟩ := h
      subst hs
      exact hv.symm

lemma simLoop_cons_ok {table : ℤ → Option Record} {st y : ℤ} {rest : List ℤ}
    {s sf : SimState} {trs : List StepRec} {ems : List (ℤ × SeriesEntry)}
    (h : simLoop table st (y :: rest) s = .ok (sf, trs, ems)) :
    ∃ s' akv trs' ems',
      stepBody table y s = .ok (s', akv) ∧
      simLoop table st rest s' = .ok (sf, trs', ems') ∧
      trs = ⟨y, s, s', akv⟩ :: trs' ∧
      ems = emitAt st y akv s'.kf_sum ++ ems' := by
  rw [simLoop] at h
  cases hstep : stepBody table y s with
  | error e =>
    rw [hstep] at h
    simp at h
  | ok p =>
    obtain ⟨s', akv⟩ := p
    rw [hstep] at h
    simp only [] at h
    cases hrec : simLoop table st rest s' with
    | error e =>
      rw [hrec] at h
      simp at h
    | ok q =>
      obtain ⟨sf', trs', ems'⟩ := q
      rw [hrec] at h
      simp only [Except.ok.injEq, Prod.mk.injEq] at h
      obtain ⟨h1, h2, h3⟩ := h
      subst h1
      exact ⟨s', akv, trs', ems', rfl, hrec, h2.symm, h3.symm⟩

lemma simLoop_nil_ok {table : ℤ → Option Record} {st : ℤ} {s sf : SimState}
    {trs : List StepRec} {ems : List (ℤ × SeriesEntry)}
    (h : simLoop table st [] s = .ok (sf, trs, ems)) :
    sf = s ∧ trs = [] ∧ ems = [] := by
  rw [simLoop] at h
  simp only [Except.ok.injEq, Prod.mk.injEq] at h
  exact ⟨h.1.symm, h.2.1.symm, h.2.2.symm⟩

lemma simLoop_ok_mem {table : ℤ → Option Record} {st : ℤ} {years : List ℤ} :
    ∀ {s sf : SimState} {trs : List StepRec} {ems : List (ℤ × SeriesEntry)},
      simLoop table st years s = .ok (sf, trs, ems) →
      ∀ r ∈ trs, stepBody table r.year r.before = .ok (r.after, r.ak_val) := by
  induction years with
  | nil =>
    intro s sf trs ems h r hr
    obtain ⟨-, h2, -⟩ := simLoop_nil_ok h
    subst h2
    simp at hr
  | cons y rest ih =>
    intro s sf trs ems h r hr
    obtain ⟨s', akv, trs', ems', hstep, hrec, htr, -⟩ := simLoop_cons_ok h
    subst htr
    rcases List.mem_cons.mp hr with hhead | htail
    · subst hhead
      exact hstep
    · exact ih hrec r htail

lemma simLoop_ok_lookup {table : ℤ → Option Record} {st : ℤ} {years : List ℤ} :
    ∀ {s : SimState} {out : SimState × List StepRec × List (ℤ × SeriesEntry)},
      simLoop table st years s = .ok out →
      ∀ y ∈ years, (table (y - 1)).isSome ∧ (table y).isSome := by
  induction years with
  | nil => intro s out _ y hy; simp at hy
  | cons y0 rest ih =>
    intro s out h y hy
    obtain ⟨sf, trs, ems⟩ := out
    obtain ⟨s', akv, trs', ems', hstep, hrec, -, -⟩ := simLoop_cons_ok h
    rcases List.mem_cons.mp hy with hhead | htail
    · subst hhead
      exact stepBody_ok_lookup hstep
    · exact ih hrec y htail

lemma simLoop_ok_head_chain {table : ℤ → Option Record} {st : ℤ} {years : List ℤ} :
    ∀ {s sf : SimState} {trs : List StepRec} {ems : List (ℤ × SeriesEntry)},
      simLoop table st years s = .ok (sf, trs, ems) →
      (∀ r0 ∈ trs.head?, r0.before = s) ∧
        List.Chain' (fun a b => b.before = a.after) trs := by
  induction years with
  | nil =>
    intro s sf trs ems h
    obtain ⟨-, h2, -⟩ := simLoop_nil_ok h
    subst h2
    simp
  | cons y rest ih =>
    intro s sf trs ems h
    obtain ⟨s', akv, trs', ems', hstep, hrec, htr, -⟩ := simLoop_cons_ok h
    subst htr
    obtain ⟨ihhead, ihchain⟩ := ih hrec
    refine ⟨by simp, ?_⟩
    rw [List.chain'_cons']
    exact ⟨fun b hb => ihhead b hb, ihchain⟩

/-- The pointwise loss-cap algebra of `ak_val`. -/
lemma akval_le_and_eq (a : ℚ) :
    a - max ((a - 1) * 0.206) 0 ≤ a ∧ (a ≤ 1 → a - max ((a - 1) * 0.206) 0 = a) := by
  constructor
  · have : (0 : ℚ) ≤ max ((a - 1) * 0.206) 0 := le_max_right _ _
    linarith
  · intro ha
    have hle : (a - 1) * 0.206 ≤ 0 := by nlinarith
    rw [max_eq_right hle]
    ring

/-! ### Claims about the Horizon Simulator -/

/-- C1: at every step of every start year's simulation (the running
multipliers both starting at `1.0` and chained from step to step), the step
at year `y` computes `diff = index[y] / index[y-1]`, updates
`ak_sum` to `ak_sum * diff`, updates `kf_sum` to `kf_sum * diff` and then
multiplies it by `(1 - tax_rate[y])`, and computes
`ak_effective = ak_sum - max((ak_sum - 1.0) * 0.206, 0.0)`. -/
theorem claim_C1_step_equations (table : ℤ → Option Record) (start_year end_year : ℤ)
    (sf : SimState) (trs : List StepRec) (ems : List (ℤ × SeriesEntry))
    (h : simulate table start_year end_year = .ok (sf, trs, ems)) :
    (∀ r0 ∈ trs.head?, r0.before = ⟨1, 1⟩) ∧
    List.Chain' (fun a b => b.before = a.after) trs ∧
    ∀ r ∈ trs, ∀ prev cur : Record,
      table (r.year - 1) = some prev → table r.year = some cur →
      r.after.ak_sum = r.before.ak_sum * (cur.omxs30 / prev.omxs30) ∧
      r.after.kf_sum =
        r.before.kf_sum * (cur.omxs30 / prev.omxs30) * (1 - cur.avkastningsskatt) ∧
      r.ak_val = r.after.ak_sum - max ((r.after.ak_sum - 1) * 0.206) 0 := by
  unfold simulate at h
  obtain ⟨hhead, hchain⟩ := simLoop_ok_head_chain h
  refine ⟨hhead, hchain, ?_⟩
  intro r hr prev cur hp hc
  have hm := simLoop_ok_mem h r hr
  have hv := stepBody_ok_akval hm
  rw [stepBody_ok_of_lookup r.before hp hc] at hm
  simp only [Except.ok.injEq, Prod.mk.injEq] at hm
  obtain ⟨hafter, -⟩ := hm
  exact ⟨by rw [← hafter], by rw [← hafter], hv⟩

/-- Witness for C1: the C6 scenario table, with the step at year 2005. -/
theorem claim_C1_step_equations_witness :
    simulate c6Table 2000 2005 =
      .ok (⟨2, 2⟩,
        [⟨2001, ⟨1, 1⟩, ⟨1, 1⟩, 1⟩, ⟨2002, ⟨1, 1⟩, ⟨1, 1⟩, 1⟩, ⟨2003, ⟨1, 1⟩, ⟨1, 1⟩, 1⟩,
         ⟨2004, ⟨1, 1⟩, ⟨1, 1⟩, 1⟩, ⟨2005, ⟨1, 1⟩, ⟨2, 2⟩, 1.794⟩],
        [(5, ⟨2000, 1.794, 2⟩)]) ∧
      ((2 : ℚ) = 1 * (200 / 100) ∧ (2 : ℚ) = 1 * (200 / 100) * (1 - 0) ∧
        (1.794 : ℚ) = 2 - max ((2 - 1) * 0.206) 0) := by
  have hsim : simulate c6Table 2000 2005 =
      .ok (⟨2, 2⟩,
        [⟨2001, ⟨1, 1⟩, ⟨1, 1⟩, 1⟩, ⟨2002, ⟨1, 1⟩, ⟨1, 1⟩, 1⟩, ⟨2003, ⟨1, 1⟩, ⟨1, 1⟩, 1⟩,
         ⟨2004, ⟨1, 1⟩, ⟨1, 1⟩, 1⟩, ⟨2005, ⟨1, 1⟩, ⟨2, 2⟩, 1.794⟩],
        [(5, ⟨2000, 1.794, 2⟩)]) := by
    norm_num [simulate, yearsFromTo, yearsAsc, simLoop, stepBody, getRec, c6Table, emitAt]
  refine ⟨hsim, ?_⟩
  have h := (claim_C1_step_equations c6Table 2000 2005 _ _ _ hsim).2.2
    ⟨2005, ⟨1, 1⟩, ⟨2, 2⟩, 1.794⟩ (by simp) ⟨0, 100⟩ ⟨0, 200⟩
    (by norm_num [c6Table]) (by norm_num [c6Table])
  simpa using h

/-- C2 as stated is false; amended: every computed `ak_effective` satisfies
`ak_effective ≤ ak_sum`, and whenever `ak_sum ≤ 1.0` the subtracted amount is
floored to zero so `ak_effective = ak_sum` (not `ak_effective ≥ 1.0`). -/
theorem claim_C2_loss_cap_amended (table : ℤ → Option Record) (start_year end_year : ℤ)
    (sf : SimState) (trs : List StepRec) (ems : List (ℤ × SeriesEntry))
    (h : simulate table start_year end_year = .ok (sf, trs, ems)) :
    ∀ r ∈ trs, r.ak_val ≤ r.after.ak_sum ∧
      (r.after.ak_sum ≤ 1 → r.ak_val = r.after.ak_sum) := by
  unfold simulate at h
  intro r hr
  have hv := stepBody_ok_akval (simLoop_ok_mem h r hr)
  have halg := akval_le_and_eq r.after.ak_sum
  exact ⟨by rw [hv]; exact halg.1, fun h1 => by rw [hv]; exact halg.2 h1⟩

/-- Witness for the amended C2 at the loss scenario's single step. -/
theorem claim_C2_loss_cap_amended_witness :
    simulate lossTable 2000 2001 =
      .ok (⟨1/2, 1/2⟩, [⟨2001, ⟨1, 1⟩, ⟨1/2, 1/2⟩, 1/2⟩], []) ∧
      ((1 : ℚ)/2 ≤ 1/2 ∧ ((1 : ℚ)/2 ≤ 1 → (1 : ℚ)/2 = 1/2)) := by
  have hsim : simulate lossTable 2000 2001 =
      .ok (⟨1/2, 1/2⟩, [⟨2001, ⟨1, 1⟩, ⟨1/2, 1/2⟩, 1/2⟩], []) := by
    norm_num [simulate, yearsFromTo, yearsAsc, simLoop, stepBody, getRec, lossTable, emitAt]
  refine ⟨hsim, ?_⟩
  have h := claim_C2_loss_cap_amended lossTable 2000 2001 _ _ _ hsim
    ⟨2001, ⟨1, 1⟩, ⟨1/2, 1/2⟩, 1/2⟩ (by simp)
  exact h

/-- Counterexample to C2 as stated: in the loss scenario the step at 2001
computes `ak_sum = 1/2 ≤ 1.0` yet `ak_effective = 1/2 < 1.0`, refuting
"`ak_effective >= 1.0` whenever `ak_sum <= 1.0`". -/
theorem claim_C2_counterexample :
    simulate lossTable 2000 2001 =
      .ok (⟨1/2, 1/2⟩, [⟨2001, ⟨1, 1⟩, ⟨1/2, 1/2⟩, 1/2⟩], []) ∧
      ((1 : ℚ)/2 ≤ 1 ∧ ¬(1 ≤ (1 : ℚ)/2)) := by
  constructor
  · norm_num [simulate, yearsFromTo, yearsAsc, simLoop, stepBody, getRec, lossTable, emitAt]
  · norm_num

/-- C9: whenever a step ends with `ak_sum ≤ 1.0`, the deduction
`max((ak_sum - 1.0) * 0.206, 0.0)` is zero and the emitted effective
multiplier equals `ak_sum` exactly. -/
theorem claim_C9_no_tax_on_loss (table : ℤ → Option Record) (start_year end_year : ℤ)
    (sf : SimState) (trs : List StepRec) (ems : List (ℤ × SeriesEntry))
    (h : simulate table start_year end_year = .ok (sf, trs, ems)) :
    ∀ r ∈ trs, r.after.ak_sum ≤ 1 →
      max ((r.after.ak_sum - 1) * 0.206) 0 = 0 ∧ r.ak_val = r.after.ak_sum := by
  unfold simulate at h
  intro r hr h1
  have hv := stepBody_ok_akval (simLoop_ok_mem h r hr)
  have hle : (r.after.ak_sum - 1) * 0.206 ≤ 0 := by nlinarith
  refine ⟨max_eq_right hle, ?_⟩
  rw [hv, max_eq_right hle]
  ring

/-- Witness for C9 at the loss scenario's single step. -/
theorem claim_C9_no_tax_on_loss_witness :
    simulate lossTable 2000 2001 =
      .ok (⟨1/2, 1/2⟩, [⟨2001, ⟨1, 1⟩, ⟨1/2, 1/2⟩, 1/2⟩], []) ∧
      (1 : ℚ)/2 ≤ 1 ∧
      (max (((1 : ℚ)/2 - 1) * 0.206) 0 = 0 ∧ (1 : ℚ)/2 = 1/2) := by
  have hsim : simulate lossTable 2000 2001 =
      .ok (⟨1/2, 1/2⟩, [⟨2001, ⟨1, 1⟩, ⟨1/2, 1/2⟩, 1/2⟩], []) := by
    norm_num [simulate, yearsFromTo, yearsAsc, simLoop, stepBody, getRec, lossTable, emitAt]
  refine ⟨hsim, by norm_num, ?_⟩
  have h := claim_C9_no_tax_on_loss lossTable 2000 2001 _ _ _ hsim
    ⟨2001, ⟨1, 1⟩, ⟨1/2, 1/2⟩, 1/2⟩ (by simp) (by norm_num)
  simpa using h

/-- C4: a missing year strictly inside the window `[start_year, last_year]`
(the last year being present) makes the simulation fail with a missing-year
error and produce no normal result; concretely, on the 1993/1994/1998 gap
table, simulating start year 1993 over the horizon-5 window fails with
`missingYear 1995`. -/
theorem claim_C4_missing_year_fails :
    (∀ (table : ℤ → Option Record) (start_year end_year y : ℤ),
        start_year ≤ y → y ≤ end_year → table y = none → (table end_year).isSome →
        ∃ e, simulate table start_year end_year = .error e) ∧
      simulate gapTable 1993 1998 = .error (.missingYear 1995) := by
  constructor
  · intro table s e y hsy hye hnone hlast
    cases hr : simulate table s e with
    | error err => exact ⟨err, rfl⟩
    | ok out =>
      exfalso
      unfold simulate at hr
      have hlk := simLoop_ok_lookup hr
      have hne : y ≠ e := by
        intro he
        subst he
        rw [hnone] at hlast
        simp at hlast
      have hylt : y < e := lt_of_le_of_ne hye hne
      by_cases hy1 : s + 1 ≤ y
      · have hmem : y ∈ yearsFromTo (s + 1) e := mem_yearsFromTo.mpr ⟨hy1, hye⟩
        have hsome := (hlk y hmem).2
        rw [hnone] at hsome
        simp at hsome
      · have hys : y = s := by omega
        have hmem : s + 1 ∈ yearsFromTo (s + 1) e := mem_yearsFromTo.mpr ⟨le_refl _, by omega⟩
        have hsome := (hlk (s + 1) hmem).1
        have h2 : s + 1 - 1 = s := by ring
        rw [h2, ← hys, hnone] at hsome
        simp at hsome
  · norm_num [simulate, yearsFromTo, yearsAsc, simLoop, stepBody, getRec, gapTable, emitAt]

/-- Witness for C4's universal part at the gap table with missing year 1995. -/
theorem claim_C4_missing_year_fails_witness :
    (1993 : ℤ) ≤ 1995 ∧ (1995 : ℤ) ≤ 1998 ∧ gapTable 1995 = none ∧
      (gapTable 1998).isSome ∧ ∃ e, simulate gapTable 1993 1998 = .error e := by
  refine ⟨by norm_num, by norm_num, by norm_num [gapTable], by norm_num [gapTable], ?_⟩
  exact claim_C4_missing_year_fails.1 gapTable 1993 1998 1995
    (by norm_num) (by norm_num) (by norm_num [gapTable]) (by norm_num [gapTable])

/-- C6: on the flat-then-double scenario table, simulating start year 2000
emits at horizon 5 an aktiekonto multiplier of `2.0 - (1.0 * 0.206) = 1.794`
and a kapitalförsäkring multiplier of `2.0`. -/
theorem claim_C6_scenario :
    runEmits c6Table 2000 2005 = some [(5, ⟨2000, 2.0 - 1.0 * 0.206, 2.0⟩)] ∧
      (2.0 - 1.0 * 0.206 : ℚ) = 1.794 := by
  constructor
  · norm_num [runEmits, simulate, yearsFromTo, yearsAsc, simLoop, stepBody, getRec,
      c6Table, emitAt]
  · norm_num

/-! ### Claims about the Series Builder and the Reporter -/

/-- C8: a year in the union of the two sources but absent from one raises no
error: the snapshot is built with index value `0.0` when the year is absent
from the index source, and with tax rate `calculate_avkastningsskatt 0.0`
when the year is absent from the SLR source. -/
theorem claim_C8_zero_fill (omx slr : ℤ → Option ℚ) (y : ℤ) :
    (omx y = none → (slr y).isSome →
      combinedRecords omx slr y =
        some ⟨calculate_avkastningsskatt ((slr y).getD 0), 0⟩) ∧
    ((omx y).isSome → slr y = none →
      combinedRecords omx slr y =
        some ⟨calculate_avkastningsskatt 0, (omx y).getD 0⟩) := by
  constructor
  · intro ho hs
    simp [combinedRecords, ho, hs]
  · intro ho hs
    simp [combinedRecords, ho, hs]

/-- Witness for C8: year 2001 is only in the SLR source, year 2000 only in
the index source. -/
theorem claim_C8_zero_fill_witness :
    (omxOnly 2001 = none ∧ (slrOnly 2001).isSome ∧
      combinedRecords omxOnly slrOnly 2001 =
        some ⟨calculate_avkastningsskatt ((slrOnly 2001).getD 0), 0⟩) ∧
    ((omxOnly 2000).isSome ∧ slrOnly 2000 = none ∧
      combinedRecords omxOnly slrOnly 2000 =
        some ⟨calculate_avkastningsskatt 0, (omxOnly 2000).getD 0⟩) := by
  constructor
  · refine ⟨by norm_num [omxOnly], by norm_num [slrOnly], ?_⟩
    exact (claim_C8_zero_fill omxOnly slrOnly 2001).1
      (by norm_num [omxOnly]) (by norm_num [slrOnly])
  · refine ⟨by norm_num [omxOnly], by norm_num [slrOnly], ?_⟩
    exact (claim_C8_zero_fill omxOnly slrOnly 2000).2
      (by norm_num [omxOnly]) (by norm_num [slrOnly])

/-- C3 (code bug): `print_series` on an empty horizon group does not crash
(it is a total function and returns a value), but it has no emptiness guard:
it computes its averages by the unguarded division `sum / series.len()`,
which for the empty group is `0.0 / 0.0`, a non-finite `f32` result (`NaN`,
modelled as `none`); no explicit no-data state is produced. -/
theorem claim_C3_empty_group_nan :
    print_series [] = ⟨[], none, none⟩ := by
  norm_num [print_series, f32Div]

/-! ### Series Builder: the stable sort and the representative value (C7) -/

lemma dateLe_refl (d : ObsDate) : dateLe d d = true := by
  simp [dateLe]

lemma obsLe_refl (a : Obs) : obsLe a a = true := dateLe_refl a.date

lemma obsLe_trans : ∀ a b c : Obs, obsLe a b = true → obsLe b c = true → obsLe a c = true := by
  intro a b c
  simp only [obsLe, dateLe, decide_eq_true_eq]
  omega

lemma obsLe_total : ∀ a b : Obs, (obsLe a b || obsLe b a) = true := by
  intro a b
  simp only [obsLe, dateLe, Bool.or_eq_true, decide_eq_true_eq]
  omega

lemma enumLE_refl (x : ℕ × Obs) : List.enumLE obsLe x x = true := by
  simp [List.enumLE, obsLe_refl]

lemma enumLE_trans' : ∀ a b c : ℕ × Obs, List.enumLE obsLe a b = true →
    List.enumLE obsLe b c = true → List.enumLE obsLe a c = true :=
  List.enumLE_trans obsLe_trans

lemma enumLE_of_le_of_idx {x y : ℕ × Obs} (h1 : obsLe x.2 y.2 = true) (h2 : x.1 ≤ y.1) :
    List.enumLE obsLe x y = true := by
  simp [List.enumLE, h1, h2]

lemma enumLE_of_not_le {x y : ℕ × Obs} (h1 : obsLe x.2 y.2 = false) :
    List.enumLE obsLe y x = true := by
  have ht := obsLe_total x.2 y.2
  rw [h1] at ht
  simp only [Bool.false_or] at ht
  simp [List.enumLE, ht, h1]

lemma enumLE_antisymm_idx {x y : ℕ × Obs} (hxy : List.enumLE obsLe x y = true)
    (hyx : List.enumLE obsLe y x = true) : x.1 = y.1 := by
  by_cases h1 : obsLe x.2 y.2 = true
  · by_cases h2 : obsLe y.2 x.2 = true
    · simp only [List.enumLE, h1, h2, if_true, decide_eq_true_eq] at hxy hyx
      omega
    · simp only [List.enumLE, h2, Bool.not_eq_true] at hyx
      simp [h1] at hyx
  · simp only [List.enumLE, Bool.not_eq_true] at hxy
    simp [h1] at hxy

lemma getLast?_cons_or (a : α) (s : List α) : (a :: s).getLast? = s.getLast?.or (some a) := by
  cases s with
  | nil => rfl
  | cons b t =>
    rw [List.getLast?_cons_cons]
    cases hs : (b :: t).getLast? with
    | none =>
      have := List.getLast?_isSome (l := b :: t)
      simp [hs] at this
    | some x => rfl

lemma foldl_insert_eq (l : List Obs) : ∀ (init : ℤ → Option Obs) (y : ℤ),
    (l.foldl (fun m r => fun y' => if y' = r.date.year then some r else m y') init) y
      = ((l.filter (fun r => decide (r.date.year = y))).getLast?).or (init y) := by
  induction l with
  | nil => intro init y; simp
  | cons r t ih =>
    intro init y
    simp only [List.foldl_cons, List.filter_cons]
    rw [ih]
    by_cases hy : r.date.year = y
    · simp only [hy, decide_True, if_true, if_pos rfl]
      rw [getLast?_cons_or, Option.or_assoc, Option.or_some]
    · simp only [hy, decide_False, if_neg (Ne.symm hy), Bool.false_eq_true, if_false]

lemma foldl_sel_filter (y : ℤ) (l : List Obs) : ∀ c : Option Obs,
    l.foldl (fun c r => if r.date.year = y then selLatest c r else c) c
      = (l.filter (fun r => decide (r.date.year = y))).foldl selLatest c := by
  induction l with
  | nil => intro c; rfl
  | cons r t ih =>
    intro c
    simp only [List.foldl_cons, List.filter_cons]
    by_cases hy : r.date.year = y
    · simp only [hy, decide_True, if_true, ih, List.foldl_cons]
    · simp only [hy, decide_False, if_false, ih, Bool.false_eq_true]

lemma foldl_selE_map (u : List (ℕ × Obs)) : ∀ c : Option (ℕ × Obs),
    (u.foldl selLatestE c).map Prod.snd = (u.map Prod.snd).foldl selLatest (c.map Prod.snd) := by
  induction u with
  | nil => intro c; simp
  | cons x t ih =>
    intro c
    simp only [List.foldl_cons, List.map_cons]
    rw [ih]
    congr 1
    cases c with
    | none => rfl
    | some c0 =>
      cases hb : dateLe c0.2.date x.2.date <;>
        simp [selLatestE, selLatest, hb]

lemma foldl_selE_map_none (u : List (ℕ × Obs)) :
    (u.map Prod.snd).foldl selLatest none = (u.foldl selLatestE none).map Prod.snd := by
  have h := foldl_selE_map u none
  simpa using h.symm

lemma foldl_selE_max (u : List (ℕ × Obs)) : ∀ c0 : ℕ × Obs,
    (∀ x ∈ u, c0.1 < x.1) → u.Pairwise (fun a b => a.1 < b.1) →
    ∃ m, u.foldl selLatestE (some c0) = some m ∧ (m = c0 ∨ m ∈ u) ∧
      List.enumLE obsLe c0 m = true ∧ ∀ x ∈ u, List.enumLE obsLe x m = true := by
  induction u with
  | nil =>
    intro c0 _ _
    exact ⟨c0, rfl, Or.inl rfl, enumLE_refl c0, by simp⟩
  | cons r t ih =>
    intro c0 hidx hpw
    rw [List.pairwise_cons] at hpw
    obtain ⟨hr, ht⟩ := hpw
    have hstep : selLatestE (some c0) r =
        if dateLe c0.2.date r.2.date = true then some r else some c0 := rfl
    by_cases hb : dateLe c0.2.date r.2.date = true
    · obtain ⟨m, hm, hmem, hc, hall⟩ := ih r hr ht
      have hobs : obsLe c0.2 r.2 = true := hb
      have hc0r : List.enumLE obsLe c0 r = true :=
        enumLE_of_le_of_idx hobs (le_of_lt (hidx r (List.mem_cons_self r t)))
      refine ⟨m, ?_, ?_, enumLE_trans' _ _ _ hc0r hc, ?_⟩
      · rw [List.foldl_cons, hstep, if_pos hb]
        exact hm
      · rcases hmem with h | h
        · exact Or.inr (h ▸ List.mem_cons_self r t)
        · exact Or.inr (List.mem_cons_of_mem r h)
      · intro x hx
        rcases List.mem_cons.mp hx with h | h
        · exact h ▸ hc
        · exact hall x h
    · have hb' : obsLe c0.2 r.2 = false := by
        have : dateLe c0.2.date r.2.date = false := by
          rw [Bool.not_eq_true] at hb
          exact hb
        exact this
      have hidx' : ∀ x ∈ t, c0.1 < x.1 := fun x hx => hidx x (List.mem_cons_of_mem r hx)
      obtain ⟨m, hm, hmem, hc, hall⟩ := ih c0 hidx' ht
      have hrc0 : List.enumLE obsLe r c0 = true := enumLE_of_not_le hb'
      refine ⟨m, ?_, ?_, hc, ?_⟩
      · rw [List.foldl_cons, hstep, if_neg hb]
        exact hm
      · rcases hmem with h | h
        · exact Or.inl h
        · exact Or.inr (List.mem_cons_of_mem r h)
      · intro x hx
        rcases List.mem_cons.mp hx with h | h
        · exact h ▸ enumLE_trans' _ _ _ hrc0 hc
        · exact hall x h

lemma maxSelE_some (u : List (ℕ × Obs)) (hne : u ≠ [])
    (hpw : u.Pairwise (fun a b => a.1 < b.1)) :
    ∃ m, u.foldl selLatestE none = some m ∧ m ∈ u ∧
      ∀ x ∈ u, List.enumLE obsLe x m = true := by
  cases u with
  | nil => exact absurd rfl hne
  | cons r t =>
    rw [List.pairwise_cons] at hpw
    obtain ⟨hr, ht⟩ := hpw
    obtain ⟨m, hm, hmem, hc, hall⟩ := foldl_selE_max t r hr ht
    refine ⟨m, ?_, ?_, ?_⟩
    · rw [List.foldl_cons]
      exact hm
    · rcases hmem with h | h
      · exact h ▸ List.mem_cons_self r t
      · exact List.mem_cons_of_mem r h
    · intro x hx
      rcases List.mem_cons.mp hx with h | h
      · exact h ▸ hc
      · exact hall x h

lemma pairwise_getLast?_rel {α : Type u} {R : α → α → Prop} :
    ∀ {l : List α} {m : α}, l.Pairwise R → l.getLast? = some m →
      ∀ x ∈ l, x = m ∨ R x m := by
  intro l
  induction l with
  | nil => intro m _ hm; simp at hm
  | cons a t ih =>
    intro m hpw hm x hx
    rw [List.pairwise_cons] at hpw
    obtain ⟨ha, ht⟩ := hpw
    cases t with
    | nil =>
      simp only [List.getLast?_singleton, Option.some.injEq] at hm
      rcases List.mem_singleton.mp hx with rfl
      exact Or.inl hm
    | cons b u =>
      rw [List.getLast?_cons_cons] at hm
      have hmmem : m ∈ b :: u :=
        List.mem_of_mem_getLast? (by rw [hm]; rfl)
      rcases List.mem_cons.mp hx with h | h
      · exact Or.inr (h ▸ ha m hmmem)
      · exact ih ht hm x h

/-! claim C7 -/

theorem claim_C7_representative (records : List Obs) (y : ℤ) :
    lastValueByYear records y = chronLatestSpec records y := by
  classical
  set p : Obs → Bool := fun r => decide (r.date.year = y) with hp
  set q : ℕ × Obs → Bool := fun x => p x.2 with hq
  -- reduce the code side to the last element of the filtered sorted list
  have hcode : lastValueByYear records y =
      (((records.mergeSort obsLe).filter p).getLast?).map Obs.value := by
    unfold lastValueByYear lastRecordsByYear
    rw [foldl_insert_eq]
    rw [Option.or_none]
  -- reduce the spec side to a fold over the filtered original list
  have hspec : chronLatestSpec records y =
      ((records.filter p).foldl selLatest none).map Obs.value := by
    unfold chronLatestSpec
    rw [foldl_sel_filter]
  rw [hcode, hspec]
  -- the enumerated sorted list
  set E : List (ℕ × Obs) := records.enum.mergeSort (List.enumLE obsLe) with hE
  have hmapE : E.map Prod.snd = records.mergeSort obsLe := List.mergeSort_enum
  set T : List (ℕ × Obs) := E.filter q with hT
  set U : List (ℕ × Obs) := records.enum.filter q with hU
  have hfilterE : (records.mergeSort obsLe).filter p = T.map Prod.snd := by
    rw [← hmapE, List.filter_map]
    rfl
  have hsnd : records.enum.map Prod.snd = records := by
    rw [List.enum_eq_enumFrom]
    exact List.enumFrom_map_snd 0 records
  have hfilterU : records.filter p = U.map Prod.snd := by
    conv_lhs => rw [← hsnd]
    rw [List.filter_map]
    rfl
  rw [hfilterE, hfilterU]
  rw [List.getLast?_map, foldl_selE_map_none]
  -- it now suffices to show the two selections agree
  suffices h : T.getLast? = U.foldl selLatestE none by
    rw [h]
  -- structural facts
  have hperm : T.Perm U := (List.mergeSort_perm records.enum _).filter q
  have hTpw : T.Pairwise (fun a b => List.enumLE obsLe a b = true) :=
    (List.sorted_mergeSort enumLE_trans' (List.enumLE_total obsLe_total)
      records.enum).filter q
  have henumpw : records.enum.Pairwise (fun a b => a.1 < b.1) := by
    have h1 : (records.enum.map Prod.fst).Pairwise (· < ·) := by
      rw [List.enum_map_fst]
      exact List.pairwise_lt_range _
    exact (List.pairwise_map.mp h1)
  have hUpw : U.Pairwise (fun a b => a.1 < b.1) :=
    List.Pairwise.sublist (List.filter_sublist records.enum) henumpw
  have hUnodup : (U.map Prod.fst).Nodup := by
    have hsub : (U.map Prod.fst).Sublist (records.enum.map Prod.fst) :=
      (List.filter_sublist records.enum).map Prod.fst
    rw [List.enum_map_fst] at hsub
    exact hsub.nodup (List.nodup_range _)
  -- case split on emptiness
  by_cases hUe : U = []
  · have hTnil : T = [] := by
      have h := hperm
      rw [hUe] at h
      exact h.eq_nil
    rw [hTnil, hUe]
    rfl
  · obtain ⟨m', hfold, hm'U, hallU⟩ := maxSelE_some U hUe hUpw
    have hTne : T ≠ [] := by
      intro h
      rw [h] at hperm
      exact hUe hperm.symm.eq_nil
    obtain ⟨m, hm⟩ := Option.isSome_iff_exists.mp (List.getLast?_isSome.mpr hTne)
    have hmT : m ∈ T := List.mem_of_mem_getLast? (by rw [hm]; rfl)
    have hmU : m ∈ U := hperm.mem_iff.mp hmT
    have hm'T : m' ∈ T := hperm.mem_iff.mpr hm'U
    have h1 : List.enumLE obsLe m m' = true := hallU m hmU
    rcases pairwise_getLast?_rel hTpw hm m' hm'T with heq | h2
    · rw [hm, hfold, heq]
    · have hidx : m.1 = m'.1 := enumLE_antisymm_idx h1 h2
      have : m = m' := List.inj_on_of_nodup_map hUnodup hmU hm'U hidx
      rw [hm, hfold, this]

end KfVsAk
